import Mathlib

/-!
# Verification of the `brainded` game simulation core (`src/game.js`)

Shallow embedding of the simulation engine of the side-scrolling reflex game:
the per-frame `update` step (gravity, obstacle advance, scoring, removal,
collision and out-of-bounds checks), the obstacle spawner `spawnThrone` with
its score-dependent re-arm interval `getSpawnInterval`, and the lifecycle
operations `setup`, `jump`, `endGame`.

Modelling choices:
* JS numbers are modelled as exact rationals (`ℚ`); every constant in the
  source (`0.5`, `0.1`, `-8`, ...) is an exact decimal.
* The mutable module-level state (`gameState`, `bird.y`, `bird.velocity`,
  `thrones`) is gathered into one `Game` record.  `bird.x`, `bird.width`,
  `bird.height` are never reassigned in the source and are constants here.
* `Math.random()` is an explicit parameter `r` (the source draws `r ∈ [0,1)`).
* `setTimeout` one-shot timers are modelled by returning the requested delay:
  `setup` returns the 2000 ms grace delay it arms, `spawnThrone` and `jump`
  return `some delay` when they arm a timer and `none` when they do not.
* The source's backwards `for (let i = thrones.length - 1; i >= 0; i--)` loop
  with `splice(i, 1)` visits every element exactly once at its index from the
  start of the loop (splicing at index `i` only shifts elements above `i`,
  which were already visited), and no element's processing reads another
  element's state: the scoring condition reads only the constant `bird.x` and
  the speed fixed before the loop.  `updateLoop` below therefore processes the
  list front to back carrying the original index, which yields the identical
  final list and identical total score delta.
-/

namespace Brainded

/-- `CANVAS_WIDTH` from src/game.js. -/
def CANVAS_WIDTH : ℚ := 1920

/-- `CANVAS_HEIGHT` from src/game.js. -/
def CANVAS_HEIGHT : ℚ := 1080

/-- `GRAVITY` from src/game.js. -/
def GRAVITY : ℚ := 0.5

/-- `JUMP_STRENGTH` from src/game.js. -/
def JUMP_STRENGTH : ℚ := -8

/-- `INITIAL_THRONE_SPEED` from src/game.js. -/
def INITIAL_THRONE_SPEED : ℚ := 12

/-- `INITIAL_SPAWN_INTERVAL` (milliseconds) from src/game.js. -/
def INITIAL_SPAWN_INTERVAL : ℕ := 3000

/-- `THRONE_GAP` from src/game.js. -/
def THRONE_GAP : ℚ := 800

/-- `THRONE_WIDTH` from src/game.js. -/
def THRONE_WIDTH : ℚ := 360

/-- `SPEED_INCREASE_RATE` from src/game.js. -/
def SPEED_INCREASE_RATE : ℚ := 0.1

/-- `bird.x` from src/game.js (never reassigned: the entity's x is fixed). -/
def bird_x : ℚ := 400

/-- `bird.width` from src/game.js (never reassigned). -/
def bird_width : ℚ := 360

/-- `bird.height` from src/game.js (never reassigned). -/
def bird_height : ℚ := 203

/-- `groundY` computed in `update`: `CANVAS_HEIGHT - 120`. -/
def groundY : ℚ := CANVAS_HEIGHT - 120

/-- `ceilingY` computed in `update`: `120`. -/
def ceilingY : ℚ := 120

/-- One obstacle record, as pushed by `spawnThrone`. -/
structure Throne where
  x : ℚ
  y : ℚ
  width : ℚ
  height : ℚ
  passed : Bool
deriving DecidableEq, Repr

/-- The mutable simulation state of src/game.js: the fields of `gameState`
(except the audio flag `musicStarted`, which is presentation-layer), the
mutable fields of `bird`, and the `thrones` array. -/
structure Game where
  running : Bool
  gameOver : Bool
  score : ℕ
  currentThroneSpeed : ℚ
  birdY : ℚ
  birdVelocity : ℚ
  thrones : List Throne
deriving DecidableEq, Repr

/-- The initial module-level state of src/game.js before any interaction. -/
def initGame : Game :=
  { running := false, gameOver := false, score := 0
    currentThroneSpeed := INITIAL_THRONE_SPEED
    birdY := CANVAS_HEIGHT / 2, birdVelocity := 0, thrones := [] }

/-- `setup()` from src/game.js: resets the whole simulation state and arms the
first spawn timer with the fixed 2000 ms grace delay (`setTimeout(spawnThrone,
2000)`); the second component is that armed delay. -/
def setup (g : Game) : Game × ℕ :=
  ({ g with running := true, gameOver := false, score := 0
            currentThroneSpeed := INITIAL_THRONE_SPEED
            birdY := CANVAS_HEIGHT / 2, birdVelocity := 0
            thrones := [] }, 2000)

/-- `getSpawnInterval()` from src/game.js. -/
def getSpawnInterval (score : ℕ) : ℕ :=
  if score < 10 then INITIAL_SPAWN_INTERVAL
  else if score < 20 then 2500
  else if score < 50 then 2000
  else if score < 100 then 1500
  else 1000

/-- `minGapY` from `spawnThrone` in src/game.js. -/
def minGapY : ℚ := 400

/-- `maxGapY` from `spawnThrone` in src/game.js:
`CANVAS_HEIGHT - THRONE_GAP - 400`. -/
def maxGapY : ℚ := CANVAS_HEIGHT - THRONE_GAP - 400

/-- The gap draw in `spawnThrone`:
`Math.random() * (maxGapY - minGapY) + minGapY` with `r = Math.random()`. -/
def gapYFromRand (r : ℚ) : ℚ := r * (maxGapY - minGapY) + minGapY

/-- The top throne pushed by `spawnThrone` for a given `gapY`. -/
def topThrone (gapY : ℚ) : Throne :=
  { x := CANVAS_WIDTH, y := 0, width := THRONE_WIDTH, height := gapY
    passed := false }

/-- The bottom throne pushed by `spawnThrone` for a given `gapY`. -/
def bottomThrone (gapY : ℚ) : Throne :=
  { x := CANVAS_WIDTH, y := gapY + THRONE_GAP, width := THRONE_WIDTH
    height := CANVAS_HEIGHT - (gapY + THRONE_GAP), passed := false }

/-- `spawnThrone()` from src/game.js, with the `Math.random()` draw `r` made
explicit.  If the session is not running (or over) the fired timer is a no-op
and does not re-arm (`none`); otherwise it appends the top/bottom pair and
re-arms with `getSpawnInterval` evaluated at the current score. -/
def spawnThrone (r : ℚ) (g : Game) : Game × Option ℕ :=
  if !g.running || g.gameOver then (g, none)
  else
    let gapY := gapYFromRand r
    ({ g with thrones := g.thrones ++ [topThrone gapY, bottomThrone gapY] },
     some (getSpawnInterval g.score))

/-- One throne's in-place mutation in the update loop: `throne.x -= speed`,
then `passed` is set when the post-advance trailing edge is left of `bird.x`. -/
def stepThrone (speed : ℚ) (t : Throne) : Throne :=
  { t with x := t.x - speed
           passed := t.passed || decide (t.x - speed + t.width < bird_x) }

/-- The score increment contributed by the throne visited at index `i`:
the source increments only when the throne newly passes *and* `i % 2 === 0`
(the top member of a pair). -/
def throneInc (speed : ℚ) (i : ℕ) (t : Throne) : ℕ :=
  if (!t.passed && decide (t.x - speed + t.width < bird_x)) && i % 2 == 0
  then 1 else 0

/-- The throne loop of `update()` in src/game.js: advance each throne by
`speed`, mark/score passes by original index parity, and drop thrones whose
trailing edge passed the field's left edge (`x + width < 0`).  Returns the
surviving thrones (in order) and the total score delta.  See the header
comment for why this front-to-back traversal carrying the original index is
exactly the source's backwards splice loop. -/
def updateLoop (speed : ℚ) : ℕ → List Throne → List Throne × ℕ
  | _, [] => ([], 0)
  | i, t :: ts =>
    let rest := updateLoop speed (i + 1) ts
    if t.x - speed + t.width < 0 then (rest.1, rest.2 + throneInc speed i t)
    else (stepThrone speed t :: rest.1, rest.2 + throneInc speed i t)

/-- The AABB overlap test of `checkCollisions` between the bird (at height
`birdY`) and one throne. -/
def birdCollides (birdY : ℚ) (t : Throne) : Bool :=
  decide (bird_x < t.x + t.width) && decide (bird_x + bird_width > t.x) &&
  decide (birdY < t.y + t.height) && decide (birdY + bird_height > t.y)

/-- `endGame()` from src/game.js (audio/DOM side effects are out of scope):
a no-op when `gameOver` already holds, else flips the lifecycle flags. -/
def endGame (g : Game) : Game :=
  if g.gameOver then g else { g with gameOver := true, running := false }

/-- The scan of `checkCollisions`: whether some throne overlaps the bird
(the source loop returns at the first hit; the only effect of a hit is one
`endGame()` call, so the early return is equivalent to this short-circuit
scan followed by at most one `endGame`). -/
def checkCollisionsAux (birdY : ℚ) : List Throne → Bool
  | [] => false
  | t :: ts => if birdCollides birdY t then true else checkCollisionsAux birdY ts

/-- `checkCollisions()` from src/game.js. -/
def checkCollisions (g : Game) : Game :=
  if checkCollisionsAux g.birdY g.thrones then endGame g else g

/-- The physics/advance/scoring part of `update()` (everything before the
collision checks): gravity then position (semi-implicit Euler), speed
recomputed from the current score, then the throne loop. -/
def moveStep (g : Game) : Game :=
  let v := g.birdVelocity + GRAVITY
  let speed := INITIAL_THRONE_SPEED + (g.score : ℚ) * SPEED_INCREASE_RATE
  let lr := updateLoop speed 0 g.thrones
  { g with birdVelocity := v, birdY := g.birdY + v
           currentThroneSpeed := speed
           thrones := lr.1, score := g.score + lr.2 }

/-- `update()` from src/game.js: guarded on the lifecycle flags, then the
physics/throne step, then obstacle collisions, then the ground/ceiling check. -/
def update (g : Game) : Game :=
  if !g.running || g.gameOver then g
  else
    let g2 := checkCollisions (moveStep g)
    if g2.birdY + bird_height ≥ groundY || g2.birdY ≤ ceilingY then endGame g2
    else g2

/-- `jump()` from src/game.js (audio side effects out of scope): starts or
restarts via `setup` when not running or when over, else overwrites the
velocity with the fixed impulse.  The second component is the spawn-timer
delay armed by this call, if any. -/
def jump (g : Game) : Game × Option ℕ :=
  if !g.running then ((setup g).1, some (setup g).2)
  else if g.gameOver then ((setup g).1, some (setup g).2)
  else ({ g with birdVelocity := JUMP_STRENGTH }, none)

/-- The state right after a session start (`setup` applied to the initial
state). -/
def startState : Game := (setup initGame).1

/-- `n` consecutive frames (`update` calls) from the session start. -/
def runTicks (n : ℕ) : Game := update^[n] startState

/-- The throne subsystem over consecutive ticks: apply the `update` throne
loop once per tick with that tick's speed, accumulating the score delta. -/
def runThrones : List ℚ → List Throne → List Throne × ℕ
  | [], ts => (ts, 0)
  | s :: ss, ts =>
    let r1 := updateLoop s 0 ts
    let r2 := runThrones ss r1.1
    (r2.1, r1.2 + r2.2)

/-- The throne at an odd position matches the throne right before it as the
bottom member of a spawned pair: same x, same width, same `passed` flag, the
top spans from the field top (`y = 0`), and the bottom starts at the gap end
(`top.height + THRONE_GAP`) and reaches the field bottom. -/
def pairMatchedB (t b : Throne) : Bool :=
  decide (t.y = 0) && decide (b.x = t.x) && decide (b.width = t.width) &&
  (b.passed == t.passed) && decide (b.y = t.height + THRONE_GAP) &&
  decide (b.y + b.height = CANVAS_HEIGHT)

/-- The live collection consists of whole pairs: even length, tops at even
positions, matching bottoms right after them. -/
def isPairListB : List Throne → Bool
  | [] => true
  | [_] => false
  | t :: b :: rest => pairMatchedB t b && isPairListB rest

/-- Whether, along a list of per-tick speeds, a throne spawned at `x` with
width `w` at some tick has its post-advance trailing edge left of `bird.x`
(the scoring condition of the update loop). -/
def everPassB (x w : ℚ) : List ℚ → Bool
  | [] => false
  | s :: ss => decide (x - s + w < bird_x) || everPassB (x - s) w ss

/-! ## Basic field-preservation lemmas -/

theorem endGame_score (g : Game) : (endGame g).score = g.score := by
  unfold endGame; split <;> rfl

theorem endGame_thrones (g : Game) : (endGame g).thrones = g.thrones := by
  unfold endGame; split <;> rfl

theorem endGame_birdY (g : Game) : (endGame g).birdY = g.birdY := by
  unfold endGame; split <;> rfl

theorem endGame_birdVelocity (g : Game) : (endGame g).birdVelocity = g.birdVelocity := by
  unfold endGame; split <;> rfl

theorem endGame_speed (g : Game) : (endGame g).currentThroneSpeed = g.currentThroneSpeed := by
  unfold endGame; split <;> rfl

theorem endGame_gameOver (g : Game) : (endGame g).gameOver = true := by
  unfold endGame; split <;> simp_all

theorem checkCollisions_score (g : Game) : (checkCollisions g).score = g.score := by
  unfold checkCollisions; split
  · exact endGame_score g
  · rfl

theorem checkCollisions_thrones (g : Game) : (checkCollisions g).thrones = g.thrones := by
  unfold checkCollisions; split
  · exact endGame_thrones g
  · rfl

theorem checkCollisions_birdY (g : Game) : (checkCollisions g).birdY = g.birdY := by
  unfold checkCollisions; split
  · exact endGame_birdY g
  · rfl

theorem checkCollisions_birdVelocity (g : Game) :
    (checkCollisions g).birdVelocity = g.birdVelocity := by
  unfold checkCollisions; split
  · exact endGame_birdVelocity g
  · rfl

theorem checkCollisions_speed (g : Game) :
    (checkCollisions g).currentThroneSpeed = g.currentThroneSpeed := by
  unfold checkCollisions; split
  · exact endGame_speed g
  · rfl

/-! ## `update` seen through its stages -/

theorem update_eq_of_running (g : Game) (h1 : g.running = true) (h2 : g.gameOver = false) :
    update g =
      (if (checkCollisions (moveStep g)).birdY + bird_height ≥ groundY ∨
          (checkCollisions (moveStep g)).birdY ≤ ceilingY
       then endGame (checkCollisions (moveStep g))
       else checkCollisions (moveStep g)) := by
  unfold update
  rw [h1, h2]
  simp only [Bool.not_true, Bool.false_or, Bool.false_eq_true, if_false, decide_eq_true_eq]
  split <;> split <;> simp_all

theorem moveStep_birdVelocity (g : Game) :
    (moveStep g).birdVelocity = g.birdVelocity + GRAVITY := rfl

theorem moveStep_birdY (g : Game) :
    (moveStep g).birdY = g.birdY + (g.birdVelocity + GRAVITY) := rfl

theorem moveStep_speed (g : Game) :
    (moveStep g).currentThroneSpeed =
      INITIAL_THRONE_SPEED + (g.score : ℚ) * SPEED_INCREASE_RATE := rfl

theorem moveStep_thrones (g : Game) :
    (moveStep g).thrones =
      (updateLoop (INITIAL_THRONE_SPEED + (g.score : ℚ) * SPEED_INCREASE_RATE) 0 g.thrones).1 :=
  rfl

theorem update_birdVelocity (g : Game) (h1 : g.running = true) (h2 : g.gameOver = false) :
    (update g).birdVelocity = g.birdVelocity + GRAVITY := by
  rw [update_eq_of_running g h1 h2]
  split
  · rw [endGame_birdVelocity, checkCollisions_birdVelocity, moveStep_birdVelocity]
  · rw [checkCollisions_birdVelocity, moveStep_birdVelocity]

theorem update_birdY (g : Game) (h1 : g.running = true) (h2 : g.gameOver = false) :
    (update g).birdY = g.birdY + (g.birdVelocity + GRAVITY) := by
  rw [update_eq_of_running g h1 h2]
  split
  · rw [endGame_birdY, checkCollisions_birdY, moveStep_birdY]
  · rw [checkCollisions_birdY, moveStep_birdY]

theorem update_speed (g : Game) (h1 : g.running = true) (h2 : g.gameOver = false) :
    (update g).currentThroneSpeed =
      INITIAL_THRONE_SPEED + (g.score : ℚ) * SPEED_INCREASE_RATE := by
  rw [update_eq_of_running g h1 h2]
  split
  · rw [endGame_speed, checkCollisions_speed, moveStep_speed]
  · rw [checkCollisions_speed, moveStep_speed]

theorem update_thrones (g : Game) (h1 : g.running = true) (h2 : g.gameOver = false) :
    (update g).thrones =
      (updateLoop (INITIAL_THRONE_SPEED + (g.score : ℚ) * SPEED_INCREASE_RATE) 0 g.thrones).1 := by
  rw [update_eq_of_running g h1 h2]
  split
  · rw [endGame_thrones, checkCollisions_thrones, moveStep_thrones]
  · rw [checkCollisions_thrones, moveStep_thrones]

/-! ## Claim theorems, first batch -/

/-- C1: the claim that `spawnThrone` draws `gapY` uniformly from the closed
interval `[minGapY, CANVAS_HEIGHT - THRONE_GAP - minGapY]` with a `minGapY`
clearance from both field edges is FALSE on this code: with the source's
constants the upper bound is `1080 - 800 - 400 = -120 < 400`, the interval is
degenerate, and e.g. the draw `r = 1/2` yields `gapY = 140`, so the spawned
top throne leaves only a 140px top clearance and the bottom throne starts
140px above the field bottom — both clearances are below `minGapY = 400`,
contradicting the code's own comment "ensuring it's not too close to top or
bottom". -/
theorem spawn_gap_bounds_degenerate :
    maxGapY < minGapY ∧
    gapYFromRand (1/2) = 140 ∧
    (spawnThrone (1/2) startState).1.thrones = [topThrone 140, bottomThrone 140] ∧
    (topThrone 140).height < minGapY ∧
    CANVAS_HEIGHT - (bottomThrone 140).y < minGapY := by
  refine ⟨?_, ?_, ?_, ?_, ?_⟩ <;>
    norm_num [maxGapY, minGapY, CANVAS_HEIGHT, THRONE_GAP, gapYFromRand, spawnThrone,
      startState, setup, initGame, topThrone, bottomThrone]

/-- C5: `getSpawnInterval` follows the first-matching-band table
3000/2500/2000/1500/1000 ms at the thresholds 10, 20, 50, 100; in particular
at score exactly 10 it returns 2500 ms, not 3000 ms. -/
theorem spawn_interval_bands (s : ℕ) :
    (s < 10 → getSpawnInterval s = 3000) ∧
    (10 ≤ s → s < 20 → getSpawnInterval s = 2500) ∧
    (20 ≤ s → s < 50 → getSpawnInterval s = 2000) ∧
    (50 ≤ s → s < 100 → getSpawnInterval s = 1500) ∧
    (100 ≤ s → getSpawnInterval s = 1000) ∧
    getSpawnInterval 10 = 2500 := by
  unfold getSpawnInterval INITIAL_SPAWN_INTERVAL
  refine ⟨?_, ?_, ?_, ?_, ?_, ?_⟩ <;> intros <;> split_ifs <;> omega

/-- Witness for C5 at the boundary score 10. -/
theorem spawn_interval_bands_witness :
    10 ≤ 10 ∧ 10 < 20 ∧ getSpawnInterval 10 = 2500 :=
  ⟨by omega, by omega, (spawn_interval_bands 10).2.1 (by omega) (by omega)⟩

/-- C8: whenever the session is not in the Running state (`running` false or
`gameOver` set), a tick leaves the whole simulation state unchanged and a
spawn timer that fires appends nothing and does not re-arm. -/
theorem quiescent_when_not_running (g : Game) (r : ℚ)
    (h : g.running = false ∨ g.gameOver = true) :
    update g = g ∧ spawnThrone r g = (g, none) := by
  have hguard : (!g.running || g.gameOver) = true := by
    rcases h with h | h <;> simp [h]
  constructor
  · unfold update; rw [hguard]; rfl
  · unfold spawnThrone; rw [hguard]; rfl

/-- Witness for C8: a tick and a fired spawn timer on a game-over state. -/
theorem quiescent_when_not_running_witness :
    (endGame startState).gameOver = true ∧
    update (endGame startState) = endGame startState ∧
    spawnThrone (1/2) (endGame startState) = (endGame startState, none) := by
  refine ⟨rfl, ?_, ?_⟩
  · exact (quiescent_when_not_running (endGame startState) (1/2) (Or.inr rfl)).1
  · exact (quiescent_when_not_running (endGame startState) (1/2) (Or.inr rfl)).2

/-- C7: `jump()` from Idle (`running` false) or from GameOver starts a fresh
session: Running with score 0, no thrones (whatever was left over), the bird
at the vertical center with zero velocity, base speed, and the first spawn
timer armed with the fixed 2000 ms grace delay; the reset is the same state
no matter which non-running state it started from. -/
theorem jump_restart_resets (g : Game)
    (h : g.running = false ∨ g.gameOver = true) :
    (jump g).1.running = true ∧ (jump g).1.gameOver = false ∧
    (jump g).1.score = 0 ∧ (jump g).1.thrones = [] ∧
    (jump g).1.birdY = CANVAS_HEIGHT / 2 ∧ (jump g).1.birdVelocity = 0 ∧
    (jump g).1.currentThroneSpeed = INITIAL_THRONE_SPEED ∧
    (jump g).2 = some 2000 ∧
    (∀ g' : Game, (g'.running = false ∨ g'.gameOver = true) → jump g' = jump g) := by
  have key : ∀ g'' : Game, (g''.running = false ∨ g''.gameOver = true) →
      jump g'' = ((setup initGame).1, some 2000) := by
    intro g'' h''
    unfold jump
    rcases h'' with h'' | h''
    · rw [h'']; rfl
    · by_cases hr : g''.running
      · rw [hr, h'']; rfl
      · rw [Bool.eq_false_iff.mpr hr]; rfl
  rw [key g h]
  refine ⟨rfl, rfl, rfl, rfl, rfl, rfl, rfl, rfl, ?_⟩
  intro g' h'
  rw [key g' h']

/-- Witness for C7: restarting from a dirty game-over state (stale throne,
nonzero score) yields the same fresh state as the very first start. -/
theorem jump_restart_resets_witness :
    (let gOver : Game :=
      { running := false, gameOver := true, score := 7
        currentThroneSpeed := 15, birdY := 900, birdVelocity := 9
        thrones := [topThrone 200, bottomThrone 200] };
     (jump gOver).1.score = 0 ∧ (jump gOver).1.thrones = [] ∧
     (jump gOver).1.running = true ∧ (jump gOver).2 = some 2000 ∧
     jump initGame = jump gOver) := by
  refine ⟨?_, ?_, ?_, ?_, ?_⟩
  · exact (jump_restart_resets _ (Or.inl rfl)).2.2.1
  · exact (jump_restart_resets _ (Or.inl rfl)).2.2.2.1
  · exact (jump_restart_resets _ (Or.inl rfl)).1
  · exact (jump_restart_resets _ (Or.inl rfl)).2.2.2.2.2.2.2.1
  · exact (jump_restart_resets _ (Or.inl rfl)).2.2.2.2.2.2.2.2 initGame (Or.inl rfl)

/-! ## Structure of the throne update loop -/

theorem updateLoop_snd_cons (speed : ℚ) (i : ℕ) (t : Throne) (ts : List Throne) :
    (updateLoop speed i (t :: ts)).2 =
      (updateLoop speed (i + 1) ts).2 + throneInc speed i t := by
  simp only [updateLoop]
  split <;> rfl

theorem updateLoop_fst_cons (speed : ℚ) (i : ℕ) (t : Throne) (ts : List Throne) :
    (updateLoop speed i (t :: ts)).1 =
      if t.x - speed + t.width < 0 then (updateLoop speed (i + 1) ts).1
      else stepThrone speed t :: (updateLoop speed (i + 1) ts).1 := by
  simp only [updateLoop]
  split <;> rfl

theorem updateLoop_index_mod (speed : ℚ) :
    ∀ (ts : List Throne) (i : ℕ), updateLoop speed (i + 2) ts = updateLoop speed i ts := by
  intro ts
  induction ts with
  | nil => intro i; rfl
  | cons t ts ih =>
    intro i
    simp only [updateLoop, throneInc, Nat.add_mod_right]
    rw [show i + 2 + 1 = i + 1 + 2 by omega, ih (i + 1)]

theorem throneInc_odd (speed : ℚ) (i : ℕ) (hi : i % 2 = 1) (t : Throne) :
    throneInc speed i t = 0 := by
  simp [throneInc, hi]

theorem updateLoop_mem_advanced (speed : ℚ) :
    ∀ (ts : List Throne) (i : ℕ), ∀ t' ∈ (updateLoop speed i ts).1,
      ∃ t ∈ ts, t'.x = t.x - speed ∧ t'.y = t.y ∧ t'.width = t.width ∧
        t'.height = t.height := by
  intro ts
  induction ts with
  | nil => intro i t' ht'; simp [updateLoop] at ht'
  | cons t ts ih =>
    intro i t' ht'
    rw [updateLoop_fst_cons] at ht'
    split at ht'
    · obtain ⟨u, hu, hprops⟩ := ih (i + 1) t' ht'
      exact ⟨u, List.mem_cons_of_mem t hu, hprops⟩
    · rcases List.mem_cons.mp ht' with h | h
      · exact ⟨t, List.mem_cons_self t ts, by simp [h, stepThrone]⟩
      · obtain ⟨u, hu, hprops⟩ := ih (i + 1) t' h
        exact ⟨u, List.mem_cons_of_mem t hu, hprops⟩

theorem updateLoop_no_offscreen (speed : ℚ) :
    ∀ (ts : List Throne) (i : ℕ), ∀ t' ∈ (updateLoop speed i ts).1,
      0 ≤ t'.x + t'.width := by
  intro ts
  induction ts with
  | nil => intro i t' ht'; simp [updateLoop] at ht'
  | cons t ts ih =>
    intro i t' ht'
    rw [updateLoop_fst_cons] at ht'
    split at ht'
    · exact ih (i + 1) t' ht'
    · rename_i hkept
      rcases List.mem_cons.mp ht' with h | h
      · subst h
        simp only [stepThrone]
        linarith [not_lt.mp hkept]
      · exact ih (i + 1) t' h

/-! ## Claim theorems: speed recomputation and removal -/

/-- C4: on every running tick the speed used to advance the thrones — and
stored in `currentThroneSpeed` — is `INITIAL_THRONE_SPEED + score *
SPEED_INCREASE_RATE` computed from the score at the start of the tick
(whatever stale value `currentThroneSpeed` held before), and every surviving
throne was advanced by exactly that amount. -/
theorem speed_recomputed_from_score (g : Game)
    (h1 : g.running = true) (h2 : g.gameOver = false) :
    (update g).currentThroneSpeed =
      INITIAL_THRONE_SPEED + (g.score : ℚ) * SPEED_INCREASE_RATE ∧
    ∀ t' ∈ (update g).thrones, ∃ t ∈ g.thrones,
      t'.x = t.x - (INITIAL_THRONE_SPEED + (g.score : ℚ) * SPEED_INCREASE_RATE) ∧
      t'.y = t.y ∧ t'.width = t.width ∧ t'.height = t.height := by
  refine ⟨update_speed g h1 h2, ?_⟩
  intro t' ht'
  rw [update_thrones g h1 h2] at ht'
  exact updateLoop_mem_advanced _ g.thrones 0 t' ht'

/-- Witness for C4: a tick at score 5 with a stale cached speed of 99 uses
`12 + 5 * 0.1 = 12.5`, and the surviving throne moved by exactly 12.5. -/
theorem speed_recomputed_from_score_witness :
    (let gStale : Game :=
      { running := true, gameOver := false, score := 5
        currentThroneSpeed := 99, birdY := 540, birdVelocity := 0
        thrones := [topThrone 200, bottomThrone 200] };
     (update gStale).currentThroneSpeed = 12.5 ∧
     ∀ t' ∈ (update gStale).thrones, ∃ t ∈ gStale.thrones,
       t'.x = t.x - 12.5 ∧ t'.y = t.y ∧ t'.width = t.width ∧
       t'.height = t.height) := by
  have h := speed_recomputed_from_score
    { running := true, gameOver := false, score := 5
      currentThroneSpeed := 99, birdY := 540, birdVelocity := 0
      thrones := [topThrone 200, bottomThrone 200] } rfl rfl
  have hval : INITIAL_THRONE_SPEED + ((5 : ℕ) : ℚ) * SPEED_INCREASE_RATE = 12.5 := by
    norm_num [INITIAL_THRONE_SPEED, SPEED_INCREASE_RATE]
  refine ⟨?_, ?_⟩
  · rw [h.1, hval]
  · intro t' ht'
    obtain ⟨t, ht, hx, hrest⟩ := h.2 t' ht'
    exact ⟨t, ht, by rw [hx, hval], hrest⟩

/-- C9: after a running tick no throne whose trailing edge has passed the
field's left edge (`x + width < 0` after the advance) remains in the live
collection — the loop visits every throne of the tick, so removals never
leave another off-screen throne behind. -/
theorem offscreen_thrones_removed (g : Game)
    (h1 : g.running = true) (h2 : g.gameOver = false) :
    ∀ t' ∈ (update g).thrones, 0 ≤ t'.x + t'.width := by
  intro t' ht'
  rw [update_thrones g h1 h2] at ht'
  exact updateLoop_no_offscreen _ g.thrones 0 t' ht'

/-- Witness for C9: a tick on a pair about to leave the screen together with
a pair still alive; the surviving throne named here satisfies the bound. -/
theorem offscreen_thrones_removed_witness :
    (let gEdge : Game :=
      { running := true, gameOver := false, score := 0
        currentThroneSpeed := 12, birdY := 540, birdVelocity := 0
        thrones := [{ x := -350, y := 0, width := 360, height := 200, passed := true },
                    { x := -350, y := 1000, width := 360, height := 80, passed := true },
                    topThrone 200, bottomThrone 200] };
     stepThrone 12 (topThrone 200) ∈ (update gEdge).thrones ∧
     0 ≤ (stepThrone 12 (topThrone 200)).x + (stepThrone 12 (topThrone 200)).width) := by
  intro gEdge
  have hmem : stepThrone 12 (topThrone 200) ∈ (update gEdge).thrones := by
    rw [update_thrones gEdge rfl rfl]
    norm_num [updateLoop, stepThrone, throneInc, topThrone, bottomThrone,
      CANVAS_WIDTH, THRONE_WIDTH, THRONE_GAP, CANVAS_HEIGHT, bird_x,
      INITIAL_THRONE_SPEED, SPEED_INCREASE_RATE]
  exact ⟨hmem, offscreen_thrones_removed gEdge rfl rfl _ hmem⟩

/-! ## Terminal transition (C6) -/

theorem moveStep_running (g : Game) : (moveStep g).running = g.running := rfl

theorem moveStep_gameOver (g : Game) : (moveStep g).gameOver = g.gameOver := rfl

theorem moveStep_score (g : Game) :
    (moveStep g).score =
      g.score + (updateLoop (INITIAL_THRONE_SPEED + (g.score : ℚ) * SPEED_INCREASE_RATE)
        0 g.thrones).2 := rfl

theorem endGame_running_of_not_over (g : Game) (h : g.gameOver = false) :
    (endGame g).running = false := by
  unfold endGame; rw [h]; rfl

/-- C6: the end-of-session signal is idempotent — a repeated `endGame` (same
tick or later) changes nothing and the final score is retained — and a tick
in which an obstacle overlap and the ground-band condition hold
simultaneously performs the Running → GameOver transition exactly once: the
whole tick equals a single `endGame` applied to the post-physics state. -/
theorem terminal_transition_once_idempotent :
    (∀ g : Game, g.gameOver = true → endGame g = g) ∧
    (∀ g : Game, endGame (endGame g) = endGame g) ∧
    (∀ g : Game, (endGame g).score = g.score ∧ (endGame g).gameOver = true) ∧
    (∀ g : Game, g.running = true → g.gameOver = false →
      checkCollisionsAux (moveStep g).birdY (moveStep g).thrones = true →
      (moveStep g).birdY + bird_height ≥ groundY →
      update g = endGame (moveStep g) ∧
      (update g).score = (moveStep g).score ∧
      (update g).gameOver = true ∧ (update g).running = false) := by
  have hidem1 : ∀ g : Game, g.gameOver = true → endGame g = g := by
    intro g h; unfold endGame; rw [h]; rfl
  have hidem2 : ∀ g : Game, endGame (endGame g) = endGame g :=
    fun g => hidem1 (endGame g) (endGame_gameOver g)
  refine ⟨hidem1, hidem2, fun g => ⟨endGame_score g, endGame_gameOver g⟩, ?_⟩
  intro g h1 h2 hcol hg
  have hcheck : checkCollisions (moveStep g) = endGame (moveStep g) := by
    unfold checkCollisions; rw [hcol]; rfl
  have hupd : update g = endGame (moveStep g) := by
    rw [update_eq_of_running g h1 h2, hcheck]
    rw [if_pos, hidem2]
    left
    rw [endGame_birdY]
    exact hg
  refine ⟨hupd, ?_, ?_, ?_⟩
  · rw [hupd, endGame_score]
  · rw [hupd, endGame_gameOver]
  · rw [hupd]
    exact endGame_running_of_not_over _ ((moveStep_gameOver g).trans h2)

/-- Witness for C6: a tick in which the bird both overlaps a throne and
crosses the ground band ends the session once, with the score kept. -/
theorem terminal_transition_once_idempotent_witness :
    (let gBoth : Game :=
      { running := true, gameOver := false, score := 4
        currentThroneSpeed := 12, birdY := 900, birdVelocity := 0
        thrones := [{ x := 300, y := 0, width := 600, height := 1080, passed := false },
                    { x := 300, y := 1080, width := 600, height := 0, passed := false }] };
     checkCollisionsAux (moveStep gBoth).birdY (moveStep gBoth).thrones = true ∧
     (moveStep gBoth).birdY + bird_height ≥ groundY ∧
     (update gBoth).gameOver = true ∧ (update gBoth).running = false ∧
     (update gBoth).score = 4 ∧ endGame (endGame (update gBoth)) = endGame (update gBoth)) := by
  intro gBoth
  have hcol : checkCollisionsAux (moveStep gBoth).birdY (moveStep gBoth).thrones = true := by
    norm_num [moveStep, updateLoop, stepThrone, throneInc, checkCollisionsAux, birdCollides,
      bird_x, bird_width, bird_height, GRAVITY, INITIAL_THRONE_SPEED, SPEED_INCREASE_RATE]
  have hg : (moveStep gBoth).birdY + bird_height ≥ groundY := by
    norm_num [moveStep, GRAVITY, bird_height, groundY, CANVAS_HEIGHT]
  have h := terminal_transition_once_idempotent.2.2.2 gBoth rfl rfl hcol hg
  have hscore : (moveStep gBoth).score = 4 := by
    norm_num [moveStep, updateLoop, stepThrone, throneInc, bird_x,
      INITIAL_THRONE_SPEED, SPEED_INCREASE_RATE]
  exact ⟨hcol, hg, h.2.2.1, h.2.2.2, h.2.1.trans hscore,
    terminal_transition_once_idempotent.2.1 (update gBoth)⟩

/-! ## Free fall (C3) -/

theorem update_free_fall (g : Game) (h1 : g.running = true) (h2 : g.gameOver = false)
    (ht : g.thrones = [])
    (hg : g.birdY + (g.birdVelocity + GRAVITY) + bird_height < groundY)
    (hc : ceilingY < g.birdY + (g.birdVelocity + GRAVITY)) :
    update g = { g with
      birdVelocity := g.birdVelocity + GRAVITY
      birdY := g.birdY + (g.birdVelocity + GRAVITY)
      currentThroneSpeed := INITIAL_THRONE_SPEED + (g.score : ℚ) * SPEED_INCREASE_RATE } := by
  have hcheck : checkCollisions (moveStep g) = moveStep g := by
    unfold checkCollisions
    rw [moveStep_birdY, moveStep_thrones, ht]
    rfl
  rw [update_eq_of_running g h1 h2, hcheck]
  rw [if_neg]
  · unfold moveStep
    rw [ht]
    rfl
  · rw [moveStep_birdY]
    push_neg
    exact ⟨by linarith, by linarith⟩

theorem runTicks_closed : ∀ n : ℕ, n ≤ 28 →
    runTicks n = { running := true, gameOver := false, score := 0
                   currentThroneSpeed := INITIAL_THRONE_SPEED
                   birdY := CANVAS_HEIGHT / 2 + (n * (n + 1) : ℚ) / 4
                   birdVelocity := (n : ℚ) * GRAVITY, thrones := [] } := by
  intro n
  induction n with
  | zero =>
    intro _
    simp only [runTicks, Function.iterate_zero, id_eq, startState, setup, initGame]
    norm_num [Game.mk.injEq]
  | succ n ih =>
    intro hn
    have hn27 : (n : ℚ) ≤ 27 := by
      have : n ≤ 27 := by omega
      exact_mod_cast this
    have hn0 : (0 : ℚ) ≤ (n : ℚ) := Nat.cast_nonneg n
    rw [runTicks, Function.iterate_succ_apply', ← runTicks, ih (by omega)]
    rw [update_free_fall _ rfl rfl rfl
      (by simp only [GRAVITY, bird_height, groundY, CANVAS_HEIGHT]; nlinarith)
      (by simp only [GRAVITY, ceilingY, CANVAS_HEIGHT]; nlinarith)]
    simp only [Game.mk.injEq, GRAVITY, INITIAL_THRONE_SPEED, SPEED_INCREASE_RATE]
    refine ⟨trivial, trivial, trivial, ?_, ?_, ?_, trivial⟩
    · norm_num
    · push_cast
      ring
    · push_cast
      ring

theorem gravity_sum (n : ℕ) :
    (∑ k ∈ Finset.range n, ((k : ℚ) + 1) * GRAVITY) = (n * (n + 1) : ℚ) / 4 := by
  induction n with
  | zero => simp
  | succ n ih =>
    rw [Finset.sum_range_succ, ih]
    push_cast
    simp only [GRAVITY]
    ring

/-- C3: each running tick adds exactly `GRAVITY` to the velocity and then
adds the updated velocity to the position (semi-implicit Euler); `jump()`
while Running overwrites the velocity with exactly `JUMP_STRENGTH`,
regardless of the previous velocity and without moving the bird; starting
the session with velocity 0 and no jumps, after `n` ticks the velocity is
`n * GRAVITY` and the position is the initial position plus the cumulative
sum of the per-tick velocities, and the session goes GameOver at the first
tick at which `birdY + bird_height ≥ groundY` (tick 29). -/
theorem physics_semi_implicit_euler_fall :
    (∀ g : Game, g.running = true → g.gameOver = false →
      (update g).birdVelocity = g.birdVelocity + GRAVITY ∧
      (update g).birdY = g.birdY + (g.birdVelocity + GRAVITY)) ∧
    (∀ g : Game, g.running = true → g.gameOver = false →
      (jump g).1.birdVelocity = JUMP_STRENGTH ∧ (jump g).1.birdY = g.birdY) ∧
    (∀ n : ℕ, n ≤ 28 →
      (runTicks n).running = true ∧ (runTicks n).gameOver = false ∧
      (runTicks n).birdVelocity = (n : ℚ) * GRAVITY ∧
      (runTicks n).birdY =
        CANVAS_HEIGHT / 2 + ∑ k ∈ Finset.range n, ((k : ℚ) + 1) * GRAVITY) ∧
    ((runTicks 28).birdY + bird_height < groundY ∧
     (runTicks 29).birdY + bird_height ≥ groundY ∧
     (runTicks 29).gameOver = true ∧ (runTicks 29).running = false) := by
  have h28 := runTicks_closed 28 (le_refl 28)
  have h29 : runTicks 29 = update (runTicks 28) := by
    rw [runTicks, Function.iterate_succ_apply', ← runTicks]
  refine ⟨?_, ?_, ?_, ?_, ?_, ?_, ?_⟩
  · intro g hr ho
    exact ⟨update_birdVelocity g hr ho, update_birdY g hr ho⟩
  · intro g hr ho
    unfold jump
    rw [hr, ho]
    exact ⟨rfl, rfl⟩
  · intro n hn
    rw [runTicks_closed n hn, gravity_sum]
    exact ⟨rfl, rfl, rfl, rfl⟩
  · rw [h28]
    norm_num [bird_height, groundY, CANVAS_HEIGHT]
  · rw [h29, h28]
    norm_num [update, moveStep, checkCollisions, checkCollisionsAux, updateLoop, endGame,
      GRAVITY, bird_height, groundY, ceilingY, CANVAS_HEIGHT,
      INITIAL_THRONE_SPEED, SPEED_INCREASE_RATE]
  · rw [h29, h28]
    norm_num [update, moveStep, checkCollisions, checkCollisionsAux, updateLoop, endGame,
      GRAVITY, bird_height, groundY, ceilingY, CANVAS_HEIGHT,
      INITIAL_THRONE_SPEED, SPEED_INCREASE_RATE]
  · rw [h29, h28]
    norm_num [update, moveStep, checkCollisions, checkCollisionsAux, updateLoop, endGame,
      GRAVITY, bird_height, groundY, ceilingY, CANVAS_HEIGHT,
      INITIAL_THRONE_SPEED, SPEED_INCREASE_RATE]

/-- Witness for C3: the per-tick and jump statements at the start state, and
the concrete 100-tick scenario facts (GameOver already holds from tick 29 on,
well within 100 ticks). -/
theorem physics_semi_implicit_euler_fall_witness :
    startState.running = true ∧ startState.gameOver = false ∧
    (update startState).birdVelocity = startState.birdVelocity + GRAVITY ∧
    (jump startState).1.birdVelocity = JUMP_STRENGTH ∧
    (runTicks 28).birdVelocity = (28 : ℚ) * GRAVITY ∧
    (runTicks 29).gameOver = true :=
  ⟨rfl, rfl,
   (physics_semi_implicit_euler_fall.1 startState rfl rfl).1,
   (physics_semi_implicit_euler_fall.2.1 startState rfl rfl).1,
   (physics_semi_implicit_euler_fall.2.2.1 28 (by omega)).2.2.1,
   physics_semi_implicit_euler_fall.2.2.2.2.2.1⟩

/-! ## Per-pair scoring across a session (C2) -/

theorem runThrones_nil_state : ∀ ss : List ℚ, runThrones ss [] = ([], 0) := by
  intro ss
  induction ss with
  | nil => rfl
  | cons s ss ih => simp [runThrones, updateLoop, ih]

theorem updateLoop_pair_eq (s : ℚ) (t b : Throne)
    (hx : b.x = t.x) (hw : b.width = t.width) (_hp : b.passed = t.passed) :
    updateLoop s 0 [t, b] =
      (if t.x - s + t.width < 0 then ([] : List Throne)
       else [stepThrone s t, stepThrone s b],
       throneInc s 0 t) := by
  have hib : throneInc s 1 b = 0 := throneInc_odd s 1 rfl b
  simp only [updateLoop, hib, hx, hw]
  split <;> simp

theorem runThrones_pair_total :
    ∀ (ss : List ℚ) (t b : Throne),
      b.x = t.x → b.width = t.width → b.passed = t.passed →
      (runThrones ss [t, b]).2 =
        if t.passed = false ∧ everPassB t.x t.width ss = true then 1 else 0 := by
  intro ss
  induction ss with
  | nil =>
    intro t b hx hw hp
    simp [runThrones, everPassB]
  | cons s ss ih =>
    intro t b hx hw hp
    have hrun : (runThrones (s :: ss) [t, b]).2 =
        (updateLoop s 0 [t, b]).2 + (runThrones ss (updateLoop s 0 [t, b]).1).2 := rfl
    rw [hrun, updateLoop_pair_eq s t b hx hw hp]
    by_cases hrem : t.x - s + t.width < 0
    · have hcond : t.x - s + t.width < bird_x := by
        have hb : (0 : ℚ) < bird_x := by norm_num [bird_x]
        linarith
      simp only [if_pos hrem, runThrones_nil_state, throneInc]
      cases hpass : t.passed with
      | false => simp [hcond, everPassB]
      | true => simp [hpass, everPassB]
    · simp only [if_neg hrem]
      have hx' : (stepThrone s b).x = (stepThrone s t).x := by simp [stepThrone, hx]
      have hw' : (stepThrone s b).width = (stepThrone s t).width := by
        simp [stepThrone, hw]
      have hp' : (stepThrone s b).passed = (stepThrone s t).passed := by
        simp [stepThrone, hx, hw, hp]
      rw [ih (stepThrone s t) (stepThrone s b) hx' hw' hp']
      simp only [stepThrone, throneInc]
      rcases Bool.eq_false_or_eq_true t.passed with hpass | hpass <;>
        by_cases hcond : t.x - s + t.width < bird_x <;>
          simp [hpass, hcond, everPassB]

theorem everPassB_of_sum (w : ℚ) :
    ∀ (ss : List ℚ) (x : ℚ), ss ≠ [] → x - ss.sum + w < bird_x →
      everPassB x w ss = true := by
  intro ss
  induction ss with
  | nil => intro x h _; exact absurd rfl h
  | cons s ss ih =>
    intro x _ hsum
    rcases eq_or_ne ss [] with h | h
    · subst h
      have hlt : x - s + w < bird_x := by
        simp only [List.sum_cons, List.sum_nil, add_zero] at hsum
        linarith
      simp [everPassB, hlt]
    · have h2 : (x - s) - ss.sum + w < bird_x := by
        simp only [List.sum_cons] at hsum
        linarith
      simp [everPassB, ih (x - s) h h2]

/-- C2: a freshly spawned pair (top at an even position, bottom right after
it, same x and width) is credited with exactly one score increment over the
whole remainder of the session, as soon as the session runs long enough for
the entity's fixed x to pass the pair's trailing edge: never zero, never two.
On each tick the pair's increment is exactly the top member's increment
(`throneInc` at the even index); an odd-indexed (bottom) member never
increments. -/
theorem pair_scored_exactly_once (gapY : ℚ) (ss : List ℚ)
    (hpass : CANVAS_WIDTH - ss.sum + THRONE_WIDTH < bird_x) :
    (runThrones ss [topThrone gapY, bottomThrone gapY]).2 = 1 ∧
    (∀ (s : ℚ) (t b : Throne), b.x = t.x → b.width = t.width → b.passed = t.passed →
      (updateLoop s 0 [t, b]).2 = throneInc s 0 t) ∧
    (∀ (s : ℚ) (b : Throne), throneInc s 1 b = 0) := by
  refine ⟨?_, ?_, fun s b => throneInc_odd s 1 rfl b⟩
  · have hne : ss ≠ [] := by
      intro h
      rw [h] at hpass
      norm_num [CANVAS_WIDTH, THRONE_WIDTH, bird_x] at hpass
    have hever : everPassB CANVAS_WIDTH THRONE_WIDTH ss = true :=
      everPassB_of_sum THRONE_WIDTH ss CANVAS_WIDTH hne hpass
    rw [runThrones_pair_total ss (topThrone gapY) (bottomThrone gapY) rfl rfl rfl]
    simp [topThrone, hever]
  · intro s t b hx hw hp
    rw [updateLoop_pair_eq s t b hx hw hp]

/-- Witness for C2: two 1000-px ticks carry a fresh pair past the bird's x;
the pair is credited exactly one increment. -/
theorem pair_scored_exactly_once_witness :
    CANVAS_WIDTH - [(1000 : ℚ), 1000].sum + THRONE_WIDTH < bird_x ∧
    (runThrones [(1000 : ℚ), 1000] [topThrone 200, bottomThrone 200]).2 = 1 := by
  have hpass : CANVAS_WIDTH - [(1000 : ℚ), 1000].sum + THRONE_WIDTH < bird_x := by
    norm_num [CANVAS_WIDTH, THRONE_WIDTH, bird_x]
  exact ⟨hpass, (pair_scored_exactly_once 200 [1000, 1000] hpass).1⟩

/-! ## The whole-pairs invariant (C10) -/

theorem pairList_append :
    ∀ ts us : List Throne, isPairListB ts = true → isPairListB us = true →
      isPairListB (ts ++ us) = true := by
  intro ts us h1 h2
  induction ts using isPairListB.induct with
  | case1 => simpa using h2
  | case2 t => simp [isPairListB] at h1
  | case3 t b rest ih =>
    simp only [List.cons_append, isPairListB, Bool.and_eq_true] at h1 ⊢
    exact ⟨h1.1, ih h1.2⟩

theorem pairMatched_spawn (gapY : ℚ) :
    pairMatchedB (topThrone gapY) (bottomThrone gapY) = true := by
  simp only [pairMatchedB, topThrone, bottomThrone, Bool.and_eq_true, decide_eq_true_eq,
    beq_iff_eq]
  exact ⟨by simp, by ring⟩

theorem pairMatched_step (speed : ℚ) (t b : Throne) (hm : pairMatchedB t b = true) :
    pairMatchedB (stepThrone speed t) (stepThrone speed b) = true := by
  simp only [pairMatchedB, Bool.and_eq_true, decide_eq_true_eq, beq_iff_eq] at hm ⊢
  obtain ⟨⟨⟨⟨⟨hy, hx⟩, hw⟩, hp⟩, hby⟩, hbh⟩ := hm
  simp only [stepThrone]
  simp [hy, hx, hw, hp, hby]
  linarith

theorem pairList_length_even :
    ∀ ts : List Throne, isPairListB ts = true → ts.length % 2 = 0 := by
  intro ts
  induction ts using isPairListB.induct with
  | case1 => intro _; rfl
  | case2 t => intro h; simp [isPairListB] at h
  | case3 t b rest ih =>
    intro h
    simp only [isPairListB, Bool.and_eq_true] at h
    have := ih h.2
    simp only [List.length_cons]
    omega

theorem updateLoop_pairList (speed : ℚ) :
    ∀ ts : List Throne, isPairListB ts = true →
      isPairListB (updateLoop speed 0 ts).1 = true := by
  intro ts
  induction ts using isPairListB.induct with
  | case1 => intro _; rfl
  | case2 t => intro h; simp [isPairListB] at h
  | case3 t b rest ih =>
    intro h
    simp only [isPairListB, Bool.and_eq_true] at h
    obtain ⟨hm, hrest⟩ := h
    have hcomp : b.x = t.x ∧ b.width = t.width := by
      simp only [pairMatchedB, Bool.and_eq_true, decide_eq_true_eq, beq_iff_eq] at hm
      exact ⟨hm.1.1.1.1.2, hm.1.1.1.2⟩
    have h02 : updateLoop speed 2 rest = updateLoop speed 0 rest :=
      updateLoop_index_mod speed rest 0
    rw [updateLoop_fst_cons, updateLoop_fst_cons]
    have h2eq : updateLoop speed (0 + 1 + 1) rest = updateLoop speed 0 rest := h02
    rw [h2eq, hcomp.1, hcomp.2]
    by_cases hrem : t.x - speed + t.width < 0
    · simp only [if_pos hrem]
      exact ih hrest
    · simp only [if_neg hrem, isPairListB, Bool.and_eq_true]
      exact ⟨pairMatched_step speed t b hm, ih hrest⟩

theorem update_guard_eq (g : Game) (h : (!g.running || g.gameOver) = true) :
    update g = g := by
  unfold update; rw [h]; rfl

/-- C10: the live obstacle collection always consists of whole pairs — even
length, a top throne (spanning from the field top, `y = 0`) at each even
position and its matching bottom (same x, same width, same `passed` flag,
starting at the gap end and reaching the field bottom) right after it — and
every operation of the engine preserves this: `setup` clears the collection,
`spawnThrone` appends a matched pair, a tick advances and removes the two
members of each pair together (their x stay equal for their whole lifetime),
and `jump`/`endGame` never break it.  This is the invariant the index-parity
scoring rule relies on. -/
theorem pair_index_parity_invariant :
    (∀ ts : List Throne, isPairListB ts = true → ts.length % 2 = 0) ∧
    (∀ g : Game, isPairListB (setup g).1.thrones = true) ∧
    (∀ (g : Game) (r : ℚ), isPairListB g.thrones = true →
      isPairListB (spawnThrone r g).1.thrones = true) ∧
    (∀ g : Game, isPairListB g.thrones = true → isPairListB (update g).thrones = true) ∧
    (∀ g : Game, isPairListB g.thrones = true → isPairListB (jump g).1.thrones = true) ∧
    (∀ g : Game, isPairListB g.thrones = true → isPairListB (endGame g).thrones = true) := by
  refine ⟨pairList_length_even, fun g => rfl, ?_, ?_, ?_, ?_⟩
  · intro g r h
    unfold spawnThrone
    split
    · exact h
    · refine pairList_append g.thrones _ h ?_
      simp [isPairListB, pairMatched_spawn]
  · intro g h
    by_cases hguard : (!g.running || g.gameOver) = true
    · rw [update_guard_eq g hguard]
      exact h
    · have hr : g.running = true := by
        cases hv : g.running
        · rw [hv] at hguard; simp at hguard
        · rfl
      have ho : g.gameOver = false := by
        cases hv : g.gameOver
        · rfl
        · rw [hv] at hguard; simp at hguard
      rw [update_thrones g hr ho]
      exact updateLoop_pairList _ g.thrones h
  · intro g h
    unfold jump
    split
    · exact rfl
    · split
      · exact rfl
      · exact h
  · intro g h
    rw [endGame_thrones]
    exact h

/-- Witness for C10: a session state holding one live pair keeps the
whole-pairs shape through a tick, a spawn, and a game end. -/
theorem pair_index_parity_invariant_witness :
    (let gPair : Game :=
      { running := true, gameOver := false, score := 0
        currentThroneSpeed := 12, birdY := 540, birdVelocity := 0
        thrones := [topThrone 200, bottomThrone 200] };
     isPairListB gPair.thrones = true ∧
     isPairListB (update gPair).thrones = true ∧
     isPairListB (spawnThrone (1/2) gPair).1.thrones = true ∧
     isPairListB (endGame gPair).thrones = true) := by
  intro gPair
  have h : isPairListB gPair.thrones = true := by
    simp [isPairListB, pairMatched_spawn]
  exact ⟨h, pair_index_parity_invariant.2.2.2.1 gPair h,
    pair_index_parity_invariant.2.2.1 gPair (1/2) h,
    pair_index_parity_invariant.2.2.2.2.2 gPair h⟩

end Brainded
